import Mathlib

/-!
Verification of the mongoose-search-engine query-to-pipeline compiler.

This file shallowly embeds `src/index.ts` (class `SearchService`) and
`src/utils.ts` (`pipeMergeObject`) of the repository into Lean, and proves
properties of the embedded definitions.

Modelling conventions:
- JavaScript truthiness of condition values is made explicit (`truthy`,
  `truthyV`); the only falsy scalar that can occur for the declared value
  types (`string | string[] | Date[]`) is the empty string.
- Thrown `BadRequestException`s become `Except.error` carrying the message.
- JS objects representing match fragments become the inductive `Fragment`;
  the boolean `false` / `{}` / `{$and: [...]}` values that the assemblers
  return become the inductive `CondVal` (`absent` models the JS `false`
  produced by `length > 0 && {...}`).
- Caller-supplied opaque extra conditions are modelled as atomic fragments
  (`Fragment.injected`), following the spec's instruction to treat them as
  opaque pre-validated fragments.
-/

set_option maxHeartbeats 1000000

namespace MSE

/-- A scalar condition value.  The repository's declared condition value type
is `string | string[] | Date[]`, so scalars are strings or dates. -/
inductive Scalar
  | str (s : String)
  | date (ms : Int)
deriving DecidableEq

/-- JS truthiness of a scalar condition value: the empty string is falsy,
every other string and every `Date` object is truthy. -/
def truthy : Scalar → Bool
  | .str s => s != ""
  | .date _ => true

/-- JS string coercion of a scalar.  A `Date` renders with spaces and
punctuation, never as a hex string. -/
def scalarToStr : Scalar → String
  | .str s => s
  | .date ms => "Date " ++ toString ms

/-- A `PropertyCondition.value`: a scalar or a list of scalars. -/
inductive CValue
  | scalar (v : Scalar)
  | list (vs : List Scalar)
deriving DecidableEq

/-- JS truthiness of a condition value; arrays are always truthy. -/
def truthyV : CValue → Bool
  | .scalar v => truthy v
  | .list _ => true

/-- JS `s.includes(c)` for a single character, defined over the character
list (so that it evaluates by reduction). -/
def strContainsChar (s : String) (c : Char) : Bool := s.data.contains c

/-- JS `s.startsWith(p)`, defined over the character lists. -/
def strStartsWith (s p : String) : Bool := List.isPrefixOf p.data s.data

/-- JS `s.substring(n)`: drop the first `n` characters. -/
def strDrop (s : String) (n : Nat) : String := ⟨s.data.drop n⟩

/-- JS `s.split(".")[0]`: the prefix of `s` up to the first dot. -/
def firstSegment (s : String) : String := ⟨s.data.takeWhile (fun c => c != '.')⟩

/-- `s.all p` over the character list. -/
def strAll (s : String) (p : Char → Bool) : Bool := s.data.all p

/-- A hexadecimal character, as matched by the source regex `[0-9A-F]` with
the `i` flag. -/
def isHexC (c : Char) : Bool :=
  c.isDigit || ('A' ≤ c && c ≤ 'F') || ('a' ≤ c && c ≤ 'f')

/-- The source regex test `/^[0-9A-F]+$/i.test(str)`: at least one character,
all hexadecimal. -/
def hexTest (s : String) : Bool := s.length != 0 && strAll s isHexC

/-- Source `SearchService.IsValidHexString`: even length, then the regex test. -/
def IsValidHexString (s : String) : Bool :=
  if s.length % 2 != 0 then false else hexTest s

/-- Modelled from the spec: `mongoose.isValidObjectId` is external library
code (the mongoose package), not part of this repository.  The spec (§4.1)
describes the identifier check applied to condition values as matching "a
24-character hexadecimal-identifier shape"; a `Date` is not an identifier. -/
def isValidObjectId : Scalar → Bool
  | .str s => s.length == 24 && strAll s isHexC
  | .date _ => false

/-- Source enum `MatchMode` (`exists` is a Lean keyword, hence `exists_`). -/
inductive MatchMode
  | contains
  | arrayContains
  | arrayContainsObject
  | between
  | equals
  | notEquals
  | greaterThan
  | greaterThanOrEqual
  | lessThan
  | lessThanOrEqual
  | exists_
deriving DecidableEq

/-- Source interface `PropertyCondition`. -/
structure PropertyCondition where
  value : CValue
  matchMode : MatchMode
  required : Bool := false
  property : Option String := none
deriving DecidableEq

/-- Source interface `Query`: a map from field path to condition list,
modelled as an association list in entry (insertion) order, which is the
order `Object.entries` iterates. -/
abbrev Query := List (String × List PropertyCondition)

/-- The runtime value of `QuickQuery.fields`: either an actual array of
field paths or some non-array value (the source checks `Array.isArray`). -/
inductive FieldsVal
  | arr (fields : List String)
  | notArr
deriving DecidableEq

/-- Source interface `QuickQuery`, with runtime-optional members. -/
structure QuickQuery where
  value : Option String := none
  fields : Option FieldsVal := none
deriving DecidableEq

/-- Source interface `Field` (a select entry). -/
structure Field where
  field : String
  externalDocument : Bool := false
deriving DecidableEq

/-- An element of an `$in` list after identifier conversion. -/
inductive IdVal
  | oid (s : String)
  | plain (v : Scalar)
deriving DecidableEq

/-- The per-field operator part of a match fragment, one constructor per
operator object shape the source emits. `regexA` carries the `$options: "i"`
regex, `rangeA` the `{$gte, $lte}` pair (`none` models a JS `undefined`
index), `inA` the `$in` list, `elemMatchA` the `$elemMatch` with `$in`. -/
inductive Atom
  | regexA (pat : Scalar)
  | neA (v : Scalar)
  | gtA (v : Scalar)
  | gteA (v : Scalar)
  | ltA (v : Scalar)
  | lteA (v : Scalar)
  | eqLitA (v : Scalar)
  | eqOidA (s : String)
  | rangeA (lo hi : Option Scalar)
  | inA (vs : List IdVal)
  | elemMatchA (prop : Option String) (vs : List IdVal)
  | existsA (v : Scalar)
deriving DecidableEq

/-- A match-expression fragment: the JS objects the compiler assembles.
`empty` is the `{}` fragment, `atom` a single-field operator object,
`orF`/`andF` the `$or`/`$and` combinators, and `injected` an opaque
caller-supplied extra condition treated as atomic (spec §9). -/
inductive Fragment
  | empty
  | atom (field : String) (a : Atom)
  | orF (fs : List Fragment)
  | andF (fs : List Fragment)
  | injected (tag : Nat)

/-- Semantics of a fragment relative to an arbitrary valuation `σ` of the
atomic field conditions and `τ` of the injected caller conditions.  Two
fragments are logically equivalent when they evaluate identically under
every valuation. -/
def evalF (σ : String → Atom → Bool) (τ : Nat → Bool) : Fragment → Bool
  | .empty => true
  | .atom f a => σ f a
  | .injected t => τ t
  | .orF [] => false
  | .orF (f :: rest) => evalF σ τ f || evalF σ τ (.orF rest)
  | .andF [] => true
  | .andF (f :: rest) => evalF σ τ f && evalF σ τ (.andF rest)

/-- The boolean-or-object values `createFilters` / `createQuickFilter`
return per group: `absent` models the JS `false` that
`list.length > 0 && {$and: list}` evaluates to, `emptyObj` the `{}` the
quick filter returns for an empty group, `andList` the `{$and: [...]}`. -/
inductive CondVal
  | absent
  | emptyObj
  | andList (fs : List Fragment)

/-- The `{preConditions, postConditions}` record both assemblers return. -/
structure FilterResult where
  preConditions : CondVal
  postConditions : CondVal

/-- The JS values that flow through `pipeMergeObject` in
`createAggregation`: `false`, `{}`, `[]` (the historical fallback), the
assemblers' `{$and: [...]}`, a caller-supplied condition object, or the
result of structurally merging two unlike records. -/
inductive JsVal
  | falseV
  | emptyObj
  | emptyArr
  | andList (fs : List Fragment)
  | frag (f : Fragment)
  | mergedR (a b : JsVal)

/-- Whether a `JsVal` is a JS record (plain object). -/
def isRecordJs : JsVal → Bool
  | .falseV => false
  | .emptyArr => false
  | _ => true

/-- Key-wise merge of two records: `{}` is the neutral element, two
`{$and: [...]}` objects concatenate their (array-valued) `$and` keys, and
unlike records combine into an opaque merged record. -/
def mergeRecords : JsVal → JsVal → JsVal
  | .emptyObj, b => b
  | a, .emptyObj => a
  | .andList l1, .andList l2 => .andList (l1 ++ l2)
  | a, b => .mergedR a b

/-- Modelled from the spec: `deepmerge` comes from the external
`deepmerge-ts` package; the spec (§1, §9) treats it as an opaque recursive
structural merge (records merged key-wise with array-valued keys
concatenated, otherwise the later argument wins). -/
def deepmerge (a b : JsVal) : JsVal :=
  if isRecordJs a && isRecordJs b then mergeRecords a b
  else
    match a, b with
    | .emptyArr, .emptyArr => .emptyArr
    | _, _ => b

/-- Source `pipeMergeObject` (src/utils.ts): fold `deepmerge` over the
arguments starting from `{}`. -/
def pipeMergeObject (args : List JsVal) : JsVal :=
  args.foldl (fun acc curr => deepmerge acc curr) .emptyObj

/-- The object spread `{...v}` applied when building a `$match` stage:
spreading `false` or `[]` yields `{}`; records keep their keys. -/
def spreadObj : JsVal → JsVal
  | .falseV => .emptyObj
  | .emptyArr => .emptyObj
  | v => v

/-- The assemblers' group values as they appear to `pipeMergeObject`
(`?? {}` does not replace `false`, so `absent` stays the JS `false`). -/
def condValToJs : CondVal → JsVal
  | .absent => .falseV
  | .emptyObj => .emptyObj
  | .andList l => .andList l

/-- An aggregation pipeline stage.  `matchS`, `sortS`, `projectS`,
`lookupS` and `setFirst` are the stages the compiler emits (`setFirst` is
the `$set` with `$arrayElemAt` that flattens a single-element join);
`other` stands for an arbitrary caller-supplied stage. -/
inductive Stage
  | matchS (cond : JsVal)
  | sortS (key : String) (dir : Int)
  | projectS (fields : List String)
  | lookupS (from_ localField foreignField : String) (pipeline : Option (List Stage)) (as_ : String)
  | setFirst (as_ : String)
  | other (tag : Nat)

/-- The `stage["$lookup"]?.as` access: the output name of a lookup stage. -/
def stageLookupAs : Stage → Option String
  | .lookupS _ _ _ _ a => some a
  | _ => none

/-- Whether a stage is a `$sort` stage. -/
def isSortStage : Stage → Bool
  | .sortS _ _ => true
  | _ => false

/-- Whether a stage is a `$lookup` stage. -/
def isLookupStage : Stage → Bool
  | .lookupS _ _ _ _ _ => true
  | _ => false

/-- The key set of `fields.reduce((o, field) => ({...o, [field]: 1}), {})`:
duplicate keys collapse onto their first occurrence. -/
def dedupKeys (l : List String) : List String :=
  l.foldl (fun acc f => if acc.contains f then acc else acc ++ [f]) []

/-- Source interface `PaginatedQuery` (with `ModelPagination`).  `sortKey`
is declared `number` in the source types but is only ever used as an object
key, i.e. as a string. -/
structure PaginatedQuery where
  limit : Nat := 0
  page : Option Nat := none
  offset : Option Nat := none
  sortKey : Option String := none
  sortOrder : Option String := none
  query : Option Query := none
  searchQuery : Option QuickQuery := none
  select : Option (List Field) := none

namespace SearchService

/-- Source `createPropertyFilterRow`: compile one `PropertyCondition` for a
field into a match fragment, or fail with the source's error message. -/
def createPropertyFilterRow (propertyName : String) (condition : PropertyCondition) :
    Except String Fragment :=
  if !truthyV condition.value then
    .error ("Property " ++ propertyName ++ ": Filter Value is required")
  else
    match condition.matchMode with
    | .contains =>
      match condition.value with
      | .scalar v => .ok (.atom propertyName (.regexA v))
      | .list l => .ok (.orF (l.map fun item => .atom propertyName (.regexA item)))
    | .notEquals =>
      match condition.value with
      | .scalar v => .ok (.atom propertyName (.neA v))
      | .list l => .ok (.orF (l.map fun item => .atom propertyName (.neA item)))
    | .greaterThan =>
      match condition.value with
      | .scalar v => .ok (.atom propertyName (.gtA v))
      | .list l => .ok (.orF (l.map fun item => .atom propertyName (.gtA item)))
    | .greaterThanOrEqual =>
      match condition.value with
      | .scalar v => .ok (.atom propertyName (.gteA v))
      | .list l => .ok (.orF (l.map fun item => .atom propertyName (.gteA item)))
    | .lessThan =>
      match condition.value with
      | .scalar v => .ok (.atom propertyName (.ltA v))
      | .list l => .ok (.orF (l.map fun item => .atom propertyName (.ltA item)))
    | .lessThanOrEqual =>
      match condition.value with
      | .scalar v => .ok (.atom propertyName (.lteA v))
      | .list l => .ok (.orF (l.map fun item => .atom propertyName (.lteA item)))
    | .equals =>
      match condition.value with
      | .scalar v =>
        if isValidObjectId v && IsValidHexString (scalarToStr v) then
          .ok (.atom propertyName (.eqOidA (scalarToStr v)))
        else .ok (.atom propertyName (.eqLitA v))
      | .list l =>
        .ok (.orF (l.map fun item =>
          if isValidObjectId item && IsValidHexString (scalarToStr item) then
            .atom propertyName (.eqOidA (scalarToStr item))
          else .atom propertyName (.eqLitA item)))
    | .between =>
      match condition.value with
      | .scalar _ =>
        .error ("Property " ++ propertyName ++ ": between matchMode requires array value")
      | .list l => .ok (.atom propertyName (.rangeA (l.get? 0) (l.get? 1)))
    | .arrayContains =>
      let filter := (match condition.value with
        | .list l => l
        | .scalar v => [v]).map fun item =>
          if isValidObjectId item && IsValidHexString (scalarToStr item) then
            IdVal.oid (scalarToStr item)
          else IdVal.plain item
      .ok (.atom propertyName (.inA filter))
    | .arrayContainsObject =>
      let filter := (match condition.value with
        | .list l => l
        | .scalar v => [v]).map fun item =>
          if isValidObjectId item && IsValidHexString (scalarToStr item) then
            IdVal.oid (scalarToStr item)
          else IdVal.plain item
      .ok (.atom propertyName (.elemMatchA condition.property filter))
    | .exists_ =>
      match condition.value with
      | .scalar v => .ok (.atom propertyName (.existsA v))
      | .list l => .ok (.orF (l.map fun item => .atom propertyName (.existsA item)))

/-- JS `array.map(f)` where `f` may throw: elements are compiled left to
right and the first thrown error propagates. -/
def mapRows {α β : Type} (f : α → Except String β) : List α → Except String (List β)
  | [] => .ok []
  | x :: xs =>
    match f x with
    | .error e => .error e
    | .ok y =>
      match mapRows f xs with
      | .error e => .error e
      | .ok ys => .ok (y :: ys)

/-- Source `createFilterGroup`: AND or OR group over a condition list; an
empty group compiles to the `{}` fragment. -/
def createFilterGroup (propertyName : String) (conditions : List PropertyCondition)
    (useAndCondition : Bool) : Except String Fragment :=
  if conditions.length == 0 then .ok .empty
  else
    match mapRows (fun condition => createPropertyFilterRow propertyName condition) conditions with
    | .error e => .error e
    | .ok filters => .ok (if useAndCondition then .andF filters else .orF filters)

/-- Source `createPropertyFilter`: split a field's conditions into the
`required` AND group and the OR group, and AND the two groups together. -/
def createPropertyFilter (propertyName : String) (conditions : List PropertyCondition) :
    Except String Fragment :=
  if conditions.length == 0 then .ok .empty
  else
    let andConditions := conditions.filter fun condition => condition.required
    let orConditions := conditions.filter fun condition => !condition.required
    match createFilterGroup propertyName andConditions true with
    | .error e => .error e
    | .ok g1 =>
      match createFilterGroup propertyName orConditions false with
      | .error e => .error e
      | .ok g2 => .ok (.andF [g1, g2])

/-- Source helper `hasArrayObjectCondition` inside `createFilters`. -/
def hasArrayObjectCondition (filters : List PropertyCondition) : Bool :=
  filters.any fun filter => filter.matchMode == MatchMode.arrayContainsObject

/-- The `for (const [k, filter] of Object.entries(query))` loop of
`createFilters`: compile each field and push its fragment onto the post
list when the path contains a dot or a condition uses
`arrayContainsObject`, onto the pre list otherwise. -/
def buildConds : List (String × List PropertyCondition) →
    Except String (List Fragment × List Fragment)
  | [] => .ok ([], [])
  | (k, filter) :: rest =>
    match createPropertyFilter k filter with
    | .error e => .error e
    | .ok f =>
      match buildConds rest with
      | .error e => .error e
      | .ok (pre, post) =>
        if strContainsChar k '.' || hasArrayObjectCondition filter then .ok (pre, f :: post)
        else .ok (f :: pre, post)

/-- `[a]` when an optional caller condition is supplied, `[]` otherwise. -/
def optFrag : Option Fragment → List Fragment
  | some a => [a]
  | none => []

/-- `list.length > 0 && {$and: list}`: the JS `false` (modelled `absent`)
for an empty list, the `$and` object otherwise. -/
def listToCondVal (l : List Fragment) : CondVal :=
  if l.isEmpty then .absent else .andList l

/-- Source `createFilters`. -/
def createFilters (query : Option Query) (append appendPostConditions : Option Fragment) :
    Except String FilterResult :=
  match query with
  | none => .error "Filters: Query must not be null"
  | some q =>
    match buildConds q with
    | .error e => .error e
    | .ok (pre, post) =>
      let preConditions := pre ++ optFrag append
      let postConditions := post ++ optFrag appendPostConditions
      .ok { preConditions := listToCondVal preConditions,
            postConditions := listToCondVal postConditions }

/-- Source static `getFilterFields`. -/
def getFilterFields (query : Option Query) : List String :=
  match query with
  | none => []
  | some q => q.map fun e => e.1

/-- Source `createQuickPropertyFilterRow`: a case-insensitive regex match
of the quick-search value against one field. -/
def createQuickPropertyFilterRow (propertyName : String) (value : String) : Fragment :=
  .atom propertyName (.regexA (.str value))

/-- The `for (const field of fields)` loop of `createQuickFilter`: every
field's regex row goes to the post list when `hasAggregatedFields` is set,
to the pre list otherwise. -/
def quickLists (hasAggregatedFields : Bool) (value : String) :
    List String → List Fragment × List Fragment
  | [] => ([], [])
  | field :: rest =>
    let (pre, post) := quickLists hasAggregatedFields value rest
    if hasAggregatedFields then (pre, createQuickPropertyFilterRow field value :: post)
    else (createQuickPropertyFilterRow field value :: pre, post)

/-- `...(rows.length > 0 ? [{$or: rows}] : [])`. -/
def orGroup (rows : List Fragment) : List Fragment :=
  if rows.isEmpty then [] else [.orF rows]

/-- `rows.length > 0 ? {$and: rows} : {}`. -/
def finalizeRows (rows : List Fragment) : CondVal :=
  if rows.isEmpty then .emptyObj else .andList rows

/-- Source `createQuickFilter`. -/
def createQuickFilter (query : Option QuickQuery) (append appendPostConditions : Option Fragment) :
    Except String FilterResult :=
  match query with
  | none => .error "QuickFilter: Query cannot be null"
  | some qq =>
    match qq.value with
    | none => .error "QuickFilter: Filter Value is required"
    | some value =>
      if value == "" then .error "QuickFilter: Filter Value is required"
      else
        match qq.fields with
        | none => .error "QuickFilter: Fields are required"
        | some .notArr => .error "QuickFilter: Fields should be an array"
        | some (.arr fields) =>
          let hasAggregatedFields := fields.any fun field => strContainsChar field '.'
          let (pre, post) := quickLists hasAggregatedFields value fields
          let preConditionsRows := optFrag append ++ orGroup pre
          let postConditionsRows := optFrag appendPostConditions ++ orGroup post
          .ok { preConditions := finalizeRows preConditionsRows,
                postConditions := finalizeRows postConditionsRows }

/-- Source static `project`: the main `$project` stage derived from the
select list, the filter fields and the lookup output names, plus the two
always-included backward-compatible fields. -/
def project (query : Option PaginatedQuery) (aggregation : Option (List Stage)) : List Stage :=
  match query with
  | none => []
  | some pq =>
    match pq.select with
    | none => []
    | some select =>
      let fields := (select.filter fun field => !field.externalDocument).map fun field =>
        field.field
      let references := (select.filter fun field => field.externalDocument).map fun field =>
        firstSegment field.field
      let asColumns :=
        match aggregation with
        | none => []
        | some stages =>
          (stages.filter fun stage => (stageLookupAs stage).isSome).map fun stage =>
            (stageLookupAs stage).getD ""
      let filterFields := (getFilterFields pq.query).map fun field =>
        if strContainsChar field '.' then
          let object := firstSegment field
          if asColumns.contains object then object else field
        else field
      let allFields := fields ++ references ++ filterFields ++ ["testCenter", "customer"]
      [Stage.projectS (dedupKeys allFields)]

/-- Source private `createSortStage`: a `$sort` keyed by a truthy `sortKey`
with `-1` for `"desc"` and `1` otherwise, nothing for a falsy `sortKey`. -/
def createSortStage (paginatedQuery : PaginatedQuery) : List Stage :=
  match paginatedQuery.sortKey with
  | some sortKey =>
    if sortKey == "" then []
    else [Stage.sortS sortKey (if paginatedQuery.sortOrder == some "desc" then -1 else 1)]
  | none => []

/-- One merged condition group of `createAggregation`:
`pipeMergeObject(x?.side ?? {}, y?.side ?? {}, noQuery ? (extra ?? []) : {})`
(`?? {}` does not replace the JS `false`, so an `absent` group stays
`falseV`). -/
def mergeConditionGroup (fcv qcv : Option CondVal) (noQuery : Bool)
    (extra : Option Fragment) : JsVal :=
  pipeMergeObject
    [(match fcv with | some c => condValToJs c | none => .emptyObj),
     (match qcv with | some c => condValToJs c | none => .emptyObj),
     (if noQuery then
        (match extra with | some x => .frag x | none => .emptyArr)
      else .emptyObj)]

/-- The `aggregation` stage list `createAggregation` assembles from the two
assembler results: `$match(mergedPre)`, the caller-supplied lookup stages
verbatim, `$match(mergedPost)`, then the sort stage unless suppressed. -/
def buildCoreStages (filtersCondition quickFilterCondition : Option FilterResult)
    (paginatedQuery : PaginatedQuery) (lookup : Option (List Stage))
    (append appendPostConditions : Option Fragment) (ignoreSort : Bool) : List Stage :=
  let noQuery := paginatedQuery.query.isNone && paginatedQuery.searchQuery.isNone
  [Stage.matchS (spreadObj (mergeConditionGroup
      (filtersCondition.map FilterResult.preConditions)
      (quickFilterCondition.map FilterResult.preConditions) noQuery append))]
  ++ lookup.getD []
  ++ [Stage.matchS (spreadObj (mergeConditionGroup
      (filtersCondition.map FilterResult.postConditions)
      (quickFilterCondition.map FilterResult.postConditions) noQuery appendPostConditions))]
  ++ (if ignoreSort then [] else createSortStage paginatedQuery)

/-- Source `createAggregation`. -/
def createAggregation (paginatedQuery : PaginatedQuery) (lookup : Option (List Stage))
    (append appendPostConditions : Option Fragment) (ignoreSort : Bool) :
    Except String (List Stage) :=
  match (match paginatedQuery.query with
         | some q => Except.map some (createFilters (some q) append appendPostConditions)
         | none => .ok none) with
  | .error e => .error e
  | .ok filtersCondition =>
    match (match paginatedQuery.searchQuery with
           | some sq => Except.map some (createQuickFilter (some sq) append appendPostConditions)
           | none => .ok none) with
    | .error e => .error e
    | .ok quickFilterCondition =>
      let aggregation := buildCoreStages filtersCondition quickFilterCondition
        paginatedQuery lookup append appendPostConditions ignoreSort
      .ok (project (some paginatedQuery) (some aggregation) ++ aggregation)

/-- Source static `createLookup`: the `$lookup` stage (with an optional
nested pipeline and optional internal `$project`), followed by the
first-element `$set` flattening unless the join is array-valued. -/
def createLookup (from_ localField foreignField as_ : String)
    (nestedPipeline : Option (List Stage)) (projectFields : Option (List String))
    (isArray : Bool) : List Stage :=
  [Stage.lookupS from_ localField foreignField
     (if projectFields.isSome || nestedPipeline.isSome then
        some ((nestedPipeline.getD []) ++
          (match projectFields with
           | some p => [Stage.projectS p]
           | none => []))
      else none)
     as_]
  ++ (if isArray then [] else [Stage.setFirst as_])

/-- Source helper `fixNested`: replace a field that starts with a nested
collection name by that collection name. -/
def fixNested (nestedCollections : List String) (fieldName : String) : String :=
  match nestedCollections.find? fun collection => strStartsWith fieldName collection with
  | some collection => collection
  | none => fieldName

/-- The sub-field list `lookupWithNestedPipeline` computes when the query
has a select list: selected external sub-fields under the join's column
prefix, plus matching filter-field paths, with nested-join prefixes
collapsed to the nested collection names. -/
def lookupSubFields (as_ : String) (nestedPipeline : Option (List Stage))
    (pq : PaginatedQuery) (select : List Field) (fieldPath : Option String) : List String :=
  let columnPref :=
    match fieldPath with
    | some fp => if fp == "" then as_ ++ "." else fp ++ "."
    | none => as_ ++ "."
  let fields := (select.filter fun field =>
      field.externalDocument && strStartsWith field.field columnPref).map fun field =>
    strDrop field.field columnPref.length
  let nestedCollection := (nestedPipeline.getD []).foldl (fun acc stage =>
    match stageLookupAs stage with
    | some a => if a == "" then acc else acc ++ [a]
    | none => acc) []
  let filterFields := ((getFilterFields pq.query).filter fun field =>
    strStartsWith field columnPref).map fun field => strDrop field columnPref.length
  let merged := fields ++ filterFields
  merged.map fun item => fixNested nestedCollection item

/-- Source static `lookupWithNestedPipeline`. -/
def lookupWithNestedPipeline (from_ localField foreignField as_ : String)
    (nestedPipeline : Option (List Stage)) (query : Option PaginatedQuery)
    (fieldPath : Option String) (isArray : Bool) : List Stage :=
  match query with
  | none => createLookup from_ localField foreignField as_ nestedPipeline none isArray
  | some pq =>
    match pq.select with
    | none => createLookup from_ localField foreignField as_ nestedPipeline none isArray
    | some select =>
      let fields := lookupSubFields as_ nestedPipeline pq select fieldPath
      if fields.length > 0 then
        createLookup from_ localField foreignField as_ nestedPipeline
          (some (dedupKeys fields)) isArray
      else []

/-- The delegation `search` performs after building the aggregation: the
raw aggregation executor when pagination is ignored, otherwise the
paginate-or-count executor. -/
inductive SearchAction
  | raw (aggregations : List Stage)
  | paginateOrCount (aggregations : List Stage) (countOnly : Bool)

/-- Source `search`, modelled up to the external executors: it builds the
aggregation (forwarding `ignorePagination` as `createAggregation`'s
`ignoreSort` argument) and then delegates, carrying the pipeline. -/
def search (paginatedQuery : PaginatedQuery) (lookup : Option (List Stage))
    (countOnly : Bool) (append appendPostCondition : Option Fragment)
    (ignorePagination : Bool) : Except String SearchAction :=
  match createAggregation paginatedQuery lookup append appendPostCondition ignorePagination with
  | .error e => .error e
  | .ok aggregations =>
    if ignorePagination then .ok (.raw aggregations)
    else .ok (.paginateOrCount aggregations countOnly)

end SearchService

/-! ### Helper lemmas -/

/-- A one-element `$or` is logically equivalent to its member. -/
theorem evalF_orF_single (σ : String → Atom → Bool) (τ : Nat → Bool) (f : Fragment) :
    evalF σ τ (.orF [f]) = evalF σ τ f := by
  simp [evalF]

/-- The combined source guard `mongoose.isValidObjectId(s) && IsValidHexString(s)`
coincides with the 24-character hexadecimal-identifier shape. -/
theorem objectId_guard_eq_24hex (u : String) :
    (isValidObjectId (.str u) && IsValidHexString u) = (u.length == 24 && strAll u isHexC) := by
  by_cases h24 : u.length = 24
  · cases hall : strAll u isHexC with
    | true => simp [isValidObjectId, IsValidHexString, hexTest, h24, hall]
    | false => simp [isValidObjectId, IsValidHexString, hexTest, h24, hall]
  · have h : (u.length == 24) = false := by simpa using h24
    simp [isValidObjectId, h]

/-- C4: For every match mode other than `between`, and every (truthy) scalar
value `v`, compiling with value `v` and with value `[v]` yields fragments
that evaluate identically under every valuation. -/
theorem scalar_singleton_equiv (p : String) (m : MatchMode) (v : Scalar) (req : Bool)
    (prop : Option String) (hm : m ≠ MatchMode.between) (hv : truthy v = true) :
    ∃ f g,
      SearchService.createPropertyFilterRow p ⟨.scalar v, m, req, prop⟩ = .ok f ∧
      SearchService.createPropertyFilterRow p ⟨.list [v], m, req, prop⟩ = .ok g ∧
      ∀ σ τ, evalF σ τ f = evalF σ τ g := by
  cases m with
  | between => exact absurd rfl hm
  | contains =>
    refine ⟨.atom p (.regexA v), .orF [.atom p (.regexA v)], ?_, ?_, ?_⟩
    · simp [SearchService.createPropertyFilterRow, truthyV, hv]
    · simp [SearchService.createPropertyFilterRow, truthyV]
    · intro σ τ; simp [evalF]
  | notEquals =>
    refine ⟨.atom p (.neA v), .orF [.atom p (.neA v)], ?_, ?_, ?_⟩
    · simp [SearchService.createPropertyFilterRow, truthyV, hv]
    · simp [SearchService.createPropertyFilterRow, truthyV]
    · intro σ τ; simp [evalF]
  | greaterThan =>
    refine ⟨.atom p (.gtA v), .orF [.atom p (.gtA v)], ?_, ?_, ?_⟩
    · simp [SearchService.createPropertyFilterRow, truthyV, hv]
    · simp [SearchService.createPropertyFilterRow, truthyV]
    · intro σ τ; simp [evalF]
  | greaterThanOrEqual =>
    refine ⟨.atom p (.gteA v), .orF [.atom p (.gteA v)], ?_, ?_, ?_⟩
    · simp [SearchService.createPropertyFilterRow, truthyV, hv]
    · simp [SearchService.createPropertyFilterRow, truthyV]
    · intro σ τ; simp [evalF]
  | lessThan =>
    refine ⟨.atom p (.ltA v), .orF [.atom p (.ltA v)], ?_, ?_, ?_⟩
    · simp [SearchService.createPropertyFilterRow, truthyV, hv]
    · simp [SearchService.createPropertyFilterRow, truthyV]
    · intro σ τ; simp [evalF]
  | lessThanOrEqual =>
    refine ⟨.atom p (.lteA v), .orF [.atom p (.lteA v)], ?_, ?_, ?_⟩
    · simp [SearchService.createPropertyFilterRow, truthyV, hv]
    · simp [SearchService.createPropertyFilterRow, truthyV]
    · intro σ τ; simp [evalF]
  | exists_ =>
    refine ⟨.atom p (.existsA v), .orF [.atom p (.existsA v)], ?_, ?_, ?_⟩
    · simp [SearchService.createPropertyFilterRow, truthyV, hv]
    · simp [SearchService.createPropertyFilterRow, truthyV]
    · intro σ τ; simp [evalF]
  | equals =>
    cases ho : isValidObjectId v with
    | false =>
      refine ⟨.atom p (.eqLitA v), .orF [.atom p (.eqLitA v)], ?_, ?_, ?_⟩
      · simp [SearchService.createPropertyFilterRow, truthyV, hv, ho]
      · simp [SearchService.createPropertyFilterRow, truthyV, ho]
      · intro σ τ; simp [evalF]
    | true =>
      cases hh : IsValidHexString (scalarToStr v) with
      | false =>
        refine ⟨.atom p (.eqLitA v), .orF [.atom p (.eqLitA v)], ?_, ?_, ?_⟩
        · simp [SearchService.createPropertyFilterRow, truthyV, hv, ho, hh]
        · simp [SearchService.createPropertyFilterRow, truthyV, ho, hh]
        · intro σ τ; simp [evalF]
      | true =>
        refine ⟨.atom p (.eqOidA (scalarToStr v)), .orF [.atom p (.eqOidA (scalarToStr v))],
          ?_, ?_, ?_⟩
        · simp [SearchService.createPropertyFilterRow, truthyV, hv, ho, hh]
        · simp [SearchService.createPropertyFilterRow, truthyV, ho, hh]
        · intro σ τ; simp [evalF]
  | arrayContains =>
    cases ho : isValidObjectId v with
    | false =>
      refine ⟨.atom p (.inA [.plain v]), .atom p (.inA [.plain v]), ?_, ?_, fun σ τ => rfl⟩
      · simp [SearchService.createPropertyFilterRow, truthyV, hv, ho]
      · simp [SearchService.createPropertyFilterRow, truthyV, ho]
    | true =>
      cases hh : IsValidHexString (scalarToStr v) with
      | false =>
        refine ⟨.atom p (.inA [.plain v]), .atom p (.inA [.plain v]), ?_, ?_, fun σ τ => rfl⟩
        · simp [SearchService.createPropertyFilterRow, truthyV, hv, ho, hh]
        · simp [SearchService.createPropertyFilterRow, truthyV, ho, hh]
      | true =>
        refine ⟨.atom p (.inA [.oid (scalarToStr v)]), .atom p (.inA [.oid (scalarToStr v)]),
          ?_, ?_, fun σ τ => rfl⟩
        · simp [SearchService.createPropertyFilterRow, truthyV, hv, ho, hh]
        · simp [SearchService.createPropertyFilterRow, truthyV, ho, hh]
  | arrayContainsObject =>
    cases ho : isValidObjectId v with
    | false =>
      refine ⟨.atom p (.elemMatchA prop [.plain v]), .atom p (.elemMatchA prop [.plain v]),
        ?_, ?_, fun σ τ => rfl⟩
      · simp [SearchService.createPropertyFilterRow, truthyV, hv, ho]
      · simp [SearchService.createPropertyFilterRow, truthyV, ho]
    | true =>
      cases hh : IsValidHexString (scalarToStr v) with
      | false =>
        refine ⟨.atom p (.elemMatchA prop [.plain v]), .atom p (.elemMatchA prop [.plain v]),
          ?_, ?_, fun σ τ => rfl⟩
        · simp [SearchService.createPropertyFilterRow, truthyV, hv, ho, hh]
        · simp [SearchService.createPropertyFilterRow, truthyV, ho, hh]
      | true =>
        refine ⟨.atom p (.elemMatchA prop [.oid (scalarToStr v)]),
          .atom p (.elemMatchA prop [.oid (scalarToStr v)]), ?_, ?_, fun σ τ => rfl⟩
        · simp [SearchService.createPropertyFilterRow, truthyV, hv, ho, hh]
        · simp [SearchService.createPropertyFilterRow, truthyV, ho, hh]

/-- C4 witness at a concrete input. -/
theorem scalar_singleton_equiv_witness :
    ∃ f g,
      SearchService.createPropertyFilterRow "age" ⟨.scalar (.str "10"), .contains, false, none⟩ =
        .ok f ∧
      SearchService.createPropertyFilterRow "age" ⟨.list [.str "10"], .contains, false, none⟩ =
        .ok g ∧
      ∀ σ τ, evalF σ τ f = evalF σ τ g :=
  scalar_singleton_equiv "age" .contains (.str "10") false none (by decide) (by decide)

/-- C5: `between` with a two-element list `[a, b]` compiles to the single
inclusive range fragment `{$gte: a, $lte: b}`; with any scalar (non-list)
value it fails with an invalid-request error whose message names the field
(the `between` message for a truthy scalar, the value-required message for
the falsy empty string). -/
theorem between_range_and_error (p : String) (a b : Scalar) (req : Bool) (prop : Option String) :
    SearchService.createPropertyFilterRow p ⟨.list [a, b], .between, req, prop⟩ =
      .ok (.atom p (.rangeA (some a) (some b))) ∧
    ∀ v : Scalar,
      SearchService.createPropertyFilterRow p ⟨.scalar v, .between, req, prop⟩ =
        .error ("Property " ++ p ++ ": between matchMode requires array value") ∨
      SearchService.createPropertyFilterRow p ⟨.scalar v, .between, req, prop⟩ =
        .error ("Property " ++ p ++ ": Filter Value is required") := by
  constructor
  · simp [SearchService.createPropertyFilterRow, truthyV]
  · intro v
    by_cases hv : truthy v = true
    · left; simp [SearchService.createPropertyFilterRow, truthyV, hv]
    · right
      have hv' : truthy v = false := by simpa using hv
      simp [SearchService.createPropertyFilterRow, truthyV, hv']

/-- C6: `equals` on a string compiles to a typed-identifier equality
fragment exactly when the string matches the 24-character hexadecimal
identifier shape, and to a literal equality otherwise; each list element is
classified the same way; and `IsValidHexString` accepts a string only if it
has even length and consists solely of hexadecimal characters. -/
theorem equals_objectid_shape (p s : String) (req : Bool) (prop : Option String)
    (hs : s ≠ "") :
    (SearchService.createPropertyFilterRow p ⟨.scalar (.str s), .equals, req, prop⟩ =
        .ok (.atom p (.eqOidA s)) ↔ (s.length == 24 && strAll s isHexC) = true) ∧
    (SearchService.createPropertyFilterRow p ⟨.scalar (.str s), .equals, req, prop⟩ =
        .ok (.atom p (.eqLitA (.str s))) ↔ (s.length == 24 && strAll s isHexC) = false) ∧
    (∀ u : String,
      (isValidObjectId (.str u) && IsValidHexString u) = (u.length == 24 && strAll u isHexC)) ∧
    (∀ l : List Scalar,
      SearchService.createPropertyFilterRow p ⟨.list l, .equals, req, prop⟩ =
        .ok (.orF (l.map fun item =>
          if isValidObjectId item && IsValidHexString (scalarToStr item) then
            .atom p (.eqOidA (scalarToStr item))
          else .atom p (.eqLitA item)))) ∧
    (∀ t : String, IsValidHexString t = true → t.length % 2 = 0 ∧ strAll t isHexC = true) := by
  have hv : truthy (Scalar.str s) = true := by simp [truthy, hs]
  have hguard : (isValidObjectId (.str s) && IsValidHexString (scalarToStr (Scalar.str s))) =
      (s.length == 24 && strAll s isHexC) := by
    simpa [scalarToStr] using objectId_guard_eq_24hex s
  have hrow : SearchService.createPropertyFilterRow p ⟨.scalar (.str s), .equals, req, prop⟩ =
      if (s.length == 24 && strAll s isHexC) = true then .ok (.atom p (.eqOidA s))
      else .ok (.atom p (.eqLitA (.str s))) := by
    cases ho : isValidObjectId (Scalar.str s) with
    | true =>
      cases hh : IsValidHexString (scalarToStr (Scalar.str s)) with
      | true =>
        have hc : (s.length == 24 && strAll s isHexC) = true := by rw [← hguard, ho, hh]; rfl
        have hh' : IsValidHexString s = true := by simpa [scalarToStr] using hh
        simp [SearchService.createPropertyFilterRow, truthyV, hv, ho, hh', hc, scalarToStr]
      | false =>
        have hc : (s.length == 24 && strAll s isHexC) = false := by rw [← hguard, ho, hh]; rfl
        have hh' : IsValidHexString s = false := by simpa [scalarToStr] using hh
        simp [SearchService.createPropertyFilterRow, truthyV, hv, ho, hh', hc, scalarToStr]
    | false =>
      have hc : (s.length == 24 && strAll s isHexC) = false := by rw [← hguard, ho]; rfl
      simp [SearchService.createPropertyFilterRow, truthyV, hv, ho, hc, scalarToStr]
  refine ⟨?_, ?_, objectId_guard_eq_24hex, ?_, ?_⟩
  · by_cases hc : (s.length == 24 && strAll s isHexC) = true
    · simp [hrow, hc]
    · have hc' : (s.length == 24 && strAll s isHexC) = false := by simpa using hc
      simp [hrow, hc']
  · by_cases hc : (s.length == 24 && strAll s isHexC) = true
    · simp [hrow, hc]
    · have hc' : (s.length == 24 && strAll s isHexC) = false := by simpa using hc
      simp [hrow, hc']
  · intro l
    simp [SearchService.createPropertyFilterRow, truthyV]
  · intro t ht
    by_cases h2 : t.length % 2 = 0
    · refine ⟨h2, ?_⟩
      simp only [IsValidHexString, hexTest, h2] at ht
      simp at ht
      exact ht.2
    · exfalso
      simp only [IsValidHexString, hexTest] at ht
      have hb : (t.length % 2 != 0) = true := by simpa using h2
      simp [hb] at ht

/-- C6 witness: a 24-character hexadecimal string is compiled as a typed
identifier reference. -/
theorem equals_objectid_shape_witness :
    SearchService.createPropertyFilterRow "owner"
        ⟨.scalar (.str "aabbccddeeff001122334455"), .equals, false, none⟩ =
      .ok (.atom "owner" (.eqOidA "aabbccddeeff001122334455")) :=
  (equals_objectid_shape "owner" "aabbccddeeff001122334455" false none
    (by decide)).1.mpr (by decide)

/-- The loop of `createFilters` routes exactly the dotted-or-structural
fields to the post list and the others to the pre list, in entry order. -/
theorem buildConds_characterization (q : List (String × List PropertyCondition))
    (pre post : List Fragment) (h : SearchService.buildConds q = .ok (pre, post)) :
    SearchService.mapRows (fun e => SearchService.createPropertyFilter e.1 e.2)
      (q.filter fun e =>
        strContainsChar e.1 '.' || SearchService.hasArrayObjectCondition e.2) = .ok post ∧
    SearchService.mapRows (fun e => SearchService.createPropertyFilter e.1 e.2)
      (q.filter fun e =>
        !(strContainsChar e.1 '.' || SearchService.hasArrayObjectCondition e.2)) = .ok pre := by
  induction q generalizing pre post with
  | nil =>
    simp only [SearchService.buildConds, Except.ok.injEq, Prod.mk.injEq] at h
    obtain ⟨h1, h2⟩ := h
    subst h1; subst h2
    exact ⟨rfl, rfl⟩
  | cons e rest ih =>
    obtain ⟨k, fl⟩ := e
    cases hf : SearchService.createPropertyFilter k fl with
    | error err => simp [SearchService.buildConds, hf] at h
    | ok f =>
      cases hr : SearchService.buildConds rest with
      | error err => simp [SearchService.buildConds, hf, hr] at h
      | ok pq =>
        obtain ⟨p1, p2⟩ := pq
        obtain ⟨ih1, ih2⟩ := ih p1 p2 hr
        have ih2' := ih2
        simp only [Bool.not_or] at ih2'
        cases hc1 : strContainsChar k '.' with
        | true =>
          simp only [SearchService.buildConds, hf, hr, hc1, Bool.true_or, if_true,
            Except.ok.injEq, Prod.mk.injEq] at h
          obtain ⟨h1, h2⟩ := h
          subst h1; subst h2
          constructor
          · simp [List.filter_cons, hc1, SearchService.mapRows, hf, ih1]
          · simp [List.filter_cons, hc1, ih2']
        | false =>
          cases hc2 : SearchService.hasArrayObjectCondition fl with
          | true =>
            simp only [SearchService.buildConds, hf, hr, hc1, hc2, Bool.false_or, if_true,
              Except.ok.injEq, Prod.mk.injEq] at h
            obtain ⟨h1, h2⟩ := h
            subst h1; subst h2
            constructor
            · simp [List.filter_cons, hc1, hc2, SearchService.mapRows, hf, ih1]
            · simp [List.filter_cons, hc1, hc2, ih2']
          | false =>
            simp only [SearchService.buildConds, hf, hr, hc1, hc2, Bool.false_or,
              Bool.false_eq_true, if_false, Except.ok.injEq, Prod.mk.injEq] at h
            obtain ⟨h1, h2⟩ := h
            subst h1; subst h2
            constructor
            · simp [List.filter_cons, hc1, hc2, ih1]
            · simp [List.filter_cons, hc1, hc2, SearchService.mapRows, hf, ih2']

/-- C2: `createFilters` routes each field's compiled fragment to the post
conditions exactly when the field path contains a dot or one of its
conditions uses `arrayContainsObject`, and to the pre conditions otherwise;
in particular a dotted path such as `"candidate.email"` routes to post even
with match mode `equals`. -/
theorem createFilters_dot_routing (q : Query) (a b : Option Fragment) (res : FilterResult)
    (h : SearchService.createFilters (some q) a b = .ok res) :
    ∃ pre post,
      SearchService.buildConds q = .ok (pre, post) ∧
      SearchService.mapRows (fun e => SearchService.createPropertyFilter e.1 e.2)
        (q.filter fun e =>
          strContainsChar e.1 '.' || SearchService.hasArrayObjectCondition e.2) = .ok post ∧
      SearchService.mapRows (fun e => SearchService.createPropertyFilter e.1 e.2)
        (q.filter fun e =>
          !(strContainsChar e.1 '.' || SearchService.hasArrayObjectCondition e.2)) = .ok pre ∧
      res.preConditions = SearchService.listToCondVal (pre ++ SearchService.optFrag a) ∧
      res.postConditions = SearchService.listToCondVal (post ++ SearchService.optFrag b) ∧
      (strContainsChar "candidate.email" '.' ||
        SearchService.hasArrayObjectCondition
          [{ value := .scalar (.str "x"), matchMode := .equals }]) = true := by
  cases hb : SearchService.buildConds q with
  | error e => simp [SearchService.createFilters, hb] at h
  | ok pp =>
    obtain ⟨pre, post⟩ := pp
    simp only [SearchService.createFilters, hb, Except.ok.injEq] at h
    subst h
    exact ⟨pre, post, rfl, (buildConds_characterization q pre post hb).1,
      (buildConds_characterization q pre post hb).2, rfl, rfl, by decide⟩

/-- C2 witness at a concrete one-field query with a dotted path using
match mode `equals`: its fragment is routed to the post conditions. -/
theorem createFilters_dot_routing_witness :
    ∃ pre post,
      SearchService.buildConds
          [("candidate.email", [{ value := .scalar (.str "x"), matchMode := .equals }])] =
        .ok (pre, post) ∧
      SearchService.mapRows (fun e => SearchService.createPropertyFilter e.1 e.2)
        ([(("candidate.email" : String),
          [({ value := .scalar (.str "x"), matchMode := .equals } : PropertyCondition)])].filter
          fun e => strContainsChar e.1 '.' || SearchService.hasArrayObjectCondition e.2) =
        .ok post ∧
      SearchService.mapRows (fun e => SearchService.createPropertyFilter e.1 e.2)
        ([(("candidate.email" : String),
          [({ value := .scalar (.str "x"), matchMode := .equals } : PropertyCondition)])].filter
          fun e => !(strContainsChar e.1 '.' || SearchService.hasArrayObjectCondition e.2)) =
        .ok pre ∧
      (FilterResult.mk CondVal.absent
          (CondVal.andList [Fragment.andF [Fragment.empty,
            Fragment.orF [Fragment.atom "candidate.email"
              (Atom.eqLitA (Scalar.str "x"))]]])).preConditions =
        SearchService.listToCondVal (pre ++ SearchService.optFrag none) ∧
      (FilterResult.mk CondVal.absent
          (CondVal.andList [Fragment.andF [Fragment.empty,
            Fragment.orF [Fragment.atom "candidate.email"
              (Atom.eqLitA (Scalar.str "x"))]]])).postConditions =
        SearchService.listToCondVal (post ++ SearchService.optFrag none) ∧
      (strContainsChar "candidate.email" '.' ||
        SearchService.hasArrayObjectCondition
          [{ value := .scalar (.str "x"), matchMode := .equals }]) = true :=
  createFilters_dot_routing
    [("candidate.email", [{ value := .scalar (.str "x"), matchMode := .equals }])] none none
    (FilterResult.mk CondVal.absent
      (CondVal.andList [Fragment.andF [Fragment.empty,
        Fragment.orF [Fragment.atom "candidate.email" (Atom.eqLitA (Scalar.str "x"))]]]))
    rfl

/-- C9: each group of the `createFilters` result is either the JS `false`
placeholder (absent/empty) or a non-empty `{$and: [...]}`; in particular an
empty query with no extras yields the placeholder in both groups. -/
theorem createFilters_group_shape (q : Query) (a b : Option Fragment) (res : FilterResult)
    (h : SearchService.createFilters (some q) a b = .ok res) :
    (res.preConditions = .absent ∨ ∃ l, l ≠ [] ∧ res.preConditions = .andList l) ∧
    (res.postConditions = .absent ∨ ∃ l, l ≠ [] ∧ res.postConditions = .andList l) ∧
    SearchService.createFilters (some ([] : Query)) none none =
      .ok { preConditions := .absent, postConditions := .absent } := by
  cases hb : SearchService.buildConds q with
  | error e => simp [SearchService.createFilters, hb] at h
  | ok pp =>
    obtain ⟨pre, post⟩ := pp
    simp only [SearchService.createFilters, hb, Except.ok.injEq] at h
    subst h
    refine ⟨?_, ?_, rfl⟩
    · by_cases hl : (pre ++ SearchService.optFrag a).isEmpty = true
      · left; simp [SearchService.listToCondVal, hl]
      · have hl' : (pre ++ SearchService.optFrag a).isEmpty = false := by simpa using hl
        right
        refine ⟨pre ++ SearchService.optFrag a, ?_, ?_⟩
        · intro hnil
          rw [hnil] at hl'
          simp at hl'
        · simp [SearchService.listToCondVal, hl']
    · by_cases hl : (post ++ SearchService.optFrag b).isEmpty = true
      · left; simp [SearchService.listToCondVal, hl]
      · have hl' : (post ++ SearchService.optFrag b).isEmpty = false := by simpa using hl
        right
        refine ⟨post ++ SearchService.optFrag b, ?_, ?_⟩
        · intro hnil
          rw [hnil] at hl'
          simp at hl'
        · simp [SearchService.listToCondVal, hl']

/-- C9 witness at the empty query. -/
theorem createFilters_group_shape_witness :
    ((FilterResult.mk .absent .absent).preConditions = CondVal.absent ∨
      ∃ l, l ≠ [] ∧ (FilterResult.mk .absent .absent).preConditions = CondVal.andList l) ∧
    ((FilterResult.mk .absent .absent).postConditions = CondVal.absent ∨
      ∃ l, l ≠ [] ∧ (FilterResult.mk .absent .absent).postConditions = CondVal.andList l) ∧
    SearchService.createFilters (some ([] : Query)) none none =
      .ok { preConditions := .absent, postConditions := .absent } :=
  createFilters_group_shape [] none none ⟨.absent, .absent⟩ rfl

/-- C8: `createFilters` on a null query fails, and `createQuickFilter`
fails exactly when the query is null, the value is missing or empty, the
fields are missing, or the fields are not an array. -/
theorem null_and_quick_errors :
    (∀ a b, SearchService.createFilters none a b = .error "Filters: Query must not be null") ∧
    (∀ (q : Option QuickQuery) a b,
      (∃ e, SearchService.createQuickFilter q a b = .error e) ↔
        (q = none ∨ ∃ qq, q = some qq ∧
          (qq.value = none ∨ qq.value = some "" ∨ qq.fields = none ∨
           qq.fields = some .notArr))) := by
  refine ⟨fun a b => rfl, ?_⟩
  intro q a b
  constructor
  · rintro ⟨e, he⟩
    match q with
    | none => exact Or.inl rfl
    | some qq =>
      refine Or.inr ⟨qq, rfl, ?_⟩
      match hv : qq.value with
      | none => exact Or.inl rfl
      | some v =>
        by_cases hve : v = ""
        · subst hve
          exact Or.inr (Or.inl rfl)
        · have hbe : (v == "") = false := by simpa using hve
          match hf : qq.fields with
          | none => exact Or.inr (Or.inr (Or.inl rfl))
          | some .notArr => exact Or.inr (Or.inr (Or.inr rfl))
          | some (.arr fields) =>
            exfalso
            simp [SearchService.createQuickFilter, hv, hf, hbe] at he
  · rintro (rfl | ⟨qq, rfl, hcase⟩)
    · exact ⟨"QuickFilter: Query cannot be null", rfl⟩
    · rcases hcase with h | h | h | h
      · exact ⟨"QuickFilter: Filter Value is required", by
          simp [SearchService.createQuickFilter, h]⟩
      · exact ⟨"QuickFilter: Filter Value is required", by
          simp [SearchService.createQuickFilter, h]⟩
      · cases hv : qq.value with
        | none => exact ⟨"QuickFilter: Filter Value is required", by
            simp [SearchService.createQuickFilter, hv]⟩
        | some v =>
          by_cases hve : (v == "") = true
          · exact ⟨"QuickFilter: Filter Value is required", by
              simp [SearchService.createQuickFilter, hv, hve]⟩
          · have hbe : (v == "") = false := by simpa using hve
            exact ⟨"QuickFilter: Fields are required", by
              simp [SearchService.createQuickFilter, hv, hbe, h]⟩
      · cases hv : qq.value with
        | none => exact ⟨"QuickFilter: Filter Value is required", by
            simp [SearchService.createQuickFilter, hv]⟩
        | some v =>
          by_cases hve : (v == "") = true
          · exact ⟨"QuickFilter: Filter Value is required", by
              simp [SearchService.createQuickFilter, hv, hve]⟩
          · have hbe : (v == "") = false := by simpa using hve
            exact ⟨"QuickFilter: Fields should be an array", by
              simp [SearchService.createQuickFilter, hv, hbe, h]⟩

/-- When the aggregated-fields flag is set the quick-filter loop pushes
every field's regex row onto the post list. -/
theorem quickLists_true (v : String) (l : List String) :
    SearchService.quickLists true v l =
      ([], l.map fun f => SearchService.createQuickPropertyFilterRow f v) := by
  induction l with
  | nil => rfl
  | cons f rest ih => simp [SearchService.quickLists, ih]

/-- When the aggregated-fields flag is not set the quick-filter loop pushes
every field's regex row onto the pre list. -/
theorem quickLists_false (v : String) (l : List String) :
    SearchService.quickLists false v l =
      (l.map fun f => SearchService.createQuickPropertyFilterRow f v, []) := by
  induction l with
  | nil => rfl
  | cons f rest ih => simp [SearchService.quickLists, ih]

/-- C3: `createQuickFilter` routes all-or-nothing: when some listed field
path contains a dot, every field's regex row lands in the post OR group and
the pre side gets no OR group at all; otherwise every row lands in the pre
OR group. -/
theorem createQuickFilter_all_or_nothing (v : String) (l : List String)
    (a b : Option Fragment) (hv : v ≠ "") :
    SearchService.createQuickFilter (some { value := some v, fields := some (.arr l) }) a b =
      .ok (if l.any (fun f => strContainsChar f '.') then
        { preConditions := SearchService.finalizeRows (SearchService.optFrag a),
          postConditions := SearchService.finalizeRows (SearchService.optFrag b ++
            SearchService.orGroup
              (l.map fun f => SearchService.createQuickPropertyFilterRow f v)) }
      else
        { preConditions := SearchService.finalizeRows (SearchService.optFrag a ++
            SearchService.orGroup
              (l.map fun f => SearchService.createQuickPropertyFilterRow f v)),
          postConditions := SearchService.finalizeRows (SearchService.optFrag b) }) := by
  have hbe : (v == "") = false := by simpa using hv
  by_cases hagg : (l.any fun f => strContainsChar f '.') = true
  · simp [SearchService.createQuickFilter, hbe, hagg, quickLists_true, SearchService.orGroup]
  · have hagg' : (l.any fun f => strContainsChar f '.') = false := by simpa using hagg
    simp [SearchService.createQuickFilter, hbe, hagg', quickLists_false, SearchService.orGroup]

/-- C3 witness: `fields = ["email", "profile.name"]` routes both fields to
the post OR group and leaves the pre side without an OR group. -/
theorem createQuickFilter_all_or_nothing_witness :
    SearchService.createQuickFilter
        (some { value := some "jo", fields := some (.arr ["email", "profile.name"]) })
        none none =
      .ok (if (["email", "profile.name"].any fun f => strContainsChar f '.') then
        { preConditions := SearchService.finalizeRows (SearchService.optFrag none),
          postConditions := SearchService.finalizeRows (SearchService.optFrag none ++
            SearchService.orGroup
              (["email", "profile.name"].map fun f =>
                SearchService.createQuickPropertyFilterRow f "jo")) }
      else
        { preConditions := SearchService.finalizeRows (SearchService.optFrag none ++
            SearchService.orGroup
              (["email", "profile.name"].map fun f =>
                SearchService.createQuickPropertyFilterRow f "jo")),
          postConditions := SearchService.finalizeRows (SearchService.optFrag none) }) :=
  createQuickFilter_all_or_nothing "jo" ["email", "profile.name"] none none (by decide)

/-- Decomposition of a successful `createAggregation` run: the two assembler
computations succeed and the result is the projection-planner output
prepended to the core stage list. -/
theorem createAggregation_core (pq : PaginatedQuery) (lookup : Option (List Stage))
    (a b : Option Fragment) (ig : Bool) (stages : List Stage)
    (h : SearchService.createAggregation pq lookup a b ig = .ok stages) :
    ∃ fc qc : Option FilterResult,
      (match pq.query with
       | some q => Except.map some (SearchService.createFilters (some q) a b)
       | none => .ok none) = .ok fc ∧
      (match pq.searchQuery with
       | some sq => Except.map some (SearchService.createQuickFilter (some sq) a b)
       | none => .ok none) = .ok qc ∧
      stages =
        SearchService.project (some pq)
          (some (SearchService.buildCoreStages fc qc pq lookup a b ig)) ++
        SearchService.buildCoreStages fc qc pq lookup a b ig := by
  cases hq : pq.query with
  | some q =>
    cases hfq : SearchService.createFilters (some q) a b with
    | error e => simp [SearchService.createAggregation, hq, hfq, Except.map] at h
    | ok fc0 =>
      cases hsq : pq.searchQuery with
      | some sq =>
        cases hqf : SearchService.createQuickFilter (some sq) a b with
        | error e => simp [SearchService.createAggregation, hq, hfq, hsq, hqf, Except.map] at h
        | ok qc0 =>
          simp only [SearchService.createAggregation, hq, hfq, hsq, hqf, Except.map,
            Except.ok.injEq] at h
          exact ⟨some fc0, some qc0, by simp [hq, hfq, Except.map],
            by simp [hsq, hqf, Except.map], h.symm⟩
      | none =>
        simp only [SearchService.createAggregation, hq, hfq, hsq, Except.map,
          Except.ok.injEq] at h
        exact ⟨some fc0, none, by simp [hq, hfq, Except.map], by simp [hsq], h.symm⟩
  | none =>
    cases hsq : pq.searchQuery with
    | some sq =>
      cases hqf : SearchService.createQuickFilter (some sq) a b with
      | error e => simp [SearchService.createAggregation, hq, hsq, hqf, Except.map] at h
      | ok qc0 =>
        simp only [SearchService.createAggregation, hq, hsq, hqf, Except.map,
          Except.ok.injEq] at h
        exact ⟨none, some qc0, by simp [hq], by simp [hsq, hqf, Except.map], h.symm⟩
    | none =>
      simp only [SearchService.createAggregation, hq, hsq, Except.ok.injEq] at h
      exact ⟨none, none, by simp [hq], by simp [hsq], h.symm⟩

/-- C1: a successful `createAggregation` returns, in order, the projection
planner's stages, a `$match` holding the merged pre-conditions, the
caller-supplied lookup stages verbatim, a `$match` holding the merged
post-conditions, then — unless suppressed — the `$sort` stage keyed by a
(truthy) `sortKey` with direction `-1` for `"desc"` and `1` otherwise,
omitted when no `sortKey` is present. -/
theorem createAggregation_shape (pq : PaginatedQuery) (lookup : Option (List Stage))
    (a b : Option Fragment) (ig : Bool) (stages : List Stage)
    (h : SearchService.createAggregation pq lookup a b ig = .ok stages) :
    ∃ fc qc : Option FilterResult, ∃ pre post : JsVal,
      pre = spreadObj (SearchService.mergeConditionGroup
        (fc.map FilterResult.preConditions) (qc.map FilterResult.preConditions)
        (pq.query.isNone && pq.searchQuery.isNone) a) ∧
      post = spreadObj (SearchService.mergeConditionGroup
        (fc.map FilterResult.postConditions) (qc.map FilterResult.postConditions)
        (pq.query.isNone && pq.searchQuery.isNone) b) ∧
      stages =
        SearchService.project (some pq)
          (some ([Stage.matchS pre] ++ lookup.getD [] ++ [Stage.matchS post] ++
            (if ig then [] else SearchService.createSortStage pq))) ++
        ([Stage.matchS pre] ++ lookup.getD [] ++ [Stage.matchS post] ++
          (if ig then [] else SearchService.createSortStage pq)) ∧
      (∀ k, pq.sortKey = some k → k ≠ "" →
        SearchService.createSortStage pq =
          [Stage.sortS k (if pq.sortOrder == some "desc" then (-1 : Int) else 1)]) ∧
      (pq.sortKey = none → SearchService.createSortStage pq = []) := by
  have hsort1 : ∀ k, pq.sortKey = some k → k ≠ "" →
      SearchService.createSortStage pq =
        [Stage.sortS k (if pq.sortOrder == some "desc" then (-1 : Int) else 1)] := by
    intro k hk hkne
    have hke : (k == "") = false := by simpa using hkne
    simp [SearchService.createSortStage, hk, hke]
  have hsort2 : pq.sortKey = none → SearchService.createSortStage pq = [] := by
    intro hk
    simp [SearchService.createSortStage, hk]
  obtain ⟨fc, qc, h1, h2, h3⟩ := createAggregation_core pq lookup a b ig stages h
  exact ⟨fc, qc, _, _, rfl, rfl, h3, hsort1, hsort2⟩

/-- C1 witness at the empty paginated query. -/
theorem createAggregation_shape_witness :
    ∃ fc qc : Option FilterResult, ∃ pre post : JsVal,
      pre = spreadObj (SearchService.mergeConditionGroup
        (fc.map FilterResult.preConditions) (qc.map FilterResult.preConditions)
        (({} : PaginatedQuery).query.isNone && ({} : PaginatedQuery).searchQuery.isNone)
        none) ∧
      post = spreadObj (SearchService.mergeConditionGroup
        (fc.map FilterResult.postConditions) (qc.map FilterResult.postConditions)
        (({} : PaginatedQuery).query.isNone && ({} : PaginatedQuery).searchQuery.isNone)
        none) ∧
      [Stage.matchS JsVal.emptyObj, Stage.matchS JsVal.emptyObj] =
        SearchService.project (some ({} : PaginatedQuery))
          (some ([Stage.matchS pre] ++ (none : Option (List Stage)).getD [] ++
            [Stage.matchS post] ++
            (if false then [] else SearchService.createSortStage ({} : PaginatedQuery)))) ++
        ([Stage.matchS pre] ++ (none : Option (List Stage)).getD [] ++ [Stage.matchS post] ++
          (if false then [] else SearchService.createSortStage ({} : PaginatedQuery))) ∧
      (∀ k, ({} : PaginatedQuery).sortKey = some k → k ≠ "" →
        SearchService.createSortStage ({} : PaginatedQuery) =
          [Stage.sortS k
            (if ({} : PaginatedQuery).sortOrder == some "desc" then (-1 : Int) else 1)]) ∧
      (({} : PaginatedQuery).sortKey = none →
        SearchService.createSortStage ({} : PaginatedQuery) = []) :=
  createAggregation_shape {} none none none false
    [Stage.matchS .emptyObj, Stage.matchS .emptyObj] rfl

/-- C7 counterexample: with a select list present and an empty computed
sub-field list, `lookupWithNestedPipeline` returns the empty stage list —
it does not contain any lookup stage, while the claim requires one built
without an internal projection. -/
theorem lookupWithNestedPipeline_empty_subfields_cx :
    ({ limit := 10, select := some [{ field := "name" }] } : PaginatedQuery).select.isSome =
      true ∧
    SearchService.lookupSubFields "dept" none
      { limit := 10, select := some [{ field := "name" }] } [{ field := "name" }] none = [] ∧
    (SearchService.lookupWithNestedPipeline "depts" "deptId" "qid" "dept" none
      (some { limit := 10, select := some [{ field := "name" }] }) none false).isEmpty =
      true ∧
    (SearchService.lookupWithNestedPipeline "depts" "deptId" "qid" "dept" none
      (some { limit := 10, select := some [{ field := "name" }] }) none false).any
      isLookupStage = false :=
  ⟨rfl, rfl, rfl, rfl⟩

/-- C7 (amended): when the query has a select list and the computed
sub-field list for the join is empty, `lookupWithNestedPipeline` returns
the empty stage list (the join is omitted entirely); the lookup without an
internal projection is built only when the query or its select list is
absent. -/
theorem lookupWithNestedPipeline_empty_subfields (from_ lf ff as_ : String)
    (nested : Option (List Stage)) (pq : PaginatedQuery) (sel : List Field)
    (fp : Option String) (isArr : Bool) (hsel : pq.select = some sel)
    (hempty : SearchService.lookupSubFields as_ nested pq sel fp = []) :
    SearchService.lookupWithNestedPipeline from_ lf ff as_ nested (some pq) fp isArr = [] ∧
    SearchService.lookupWithNestedPipeline from_ lf ff as_ nested none fp isArr =
      SearchService.createLookup from_ lf ff as_ nested none isArr := by
  constructor
  · simp [SearchService.lookupWithNestedPipeline, hsel, hempty]
  · rfl

/-- C7 witness: amended behavior at a concrete input. -/
theorem lookupWithNestedPipeline_empty_subfields_witness :
    SearchService.lookupWithNestedPipeline "depts" "deptId" "qid" "dept" none
      (some { limit := 10, select := some [{ field := "name" }] }) none false = [] ∧
    SearchService.lookupWithNestedPipeline "depts" "deptId" "qid" "dept" none none none
      false =
      SearchService.createLookup "depts" "deptId" "qid" "dept" none none false :=
  lookupWithNestedPipeline_empty_subfields "depts" "deptId" "qid" "dept" none
    { limit := 10, select := some [{ field := "name" }] } [{ field := "name" }] none false
    rfl rfl

/-- The projection planner emits no `$sort` stage. -/
theorem project_all_not_sort (q : Option PaginatedQuery) (ag : Option (List Stage)) :
    (SearchService.project q ag).all (fun s => !isSortStage s) = true := by
  cases q with
  | none => rfl
  | some pq =>
    cases hsel : pq.select with
    | none => simp [SearchService.project, hsel]
    | some sel => simp [SearchService.project, hsel, isSortStage]

/-- C10 counterexample: with `ignorePagination` set, a caller-supplied
lookup list that itself contains a `$sort` stage makes the pipeline handed
to the raw aggregation executor contain a `$sort` stage. -/
theorem search_raw_sort_cx :
    (match SearchService.search { limit := 10, sortKey := some "name" }
        (some [Stage.sortS "x" 1]) false none none true with
      | .ok (.raw s) => s.any isSortStage
      | _ => false) = true := rfl

/-- C10 (amended): `search` forwards `ignorePagination` as
`createAggregation`'s `ignoreSort`, so with `ignorePagination` set the
pipeline delegated to the raw aggregation executor contains no `$sort`
stage beyond those present verbatim in the caller-supplied lookup list —
in particular none even when `sortKey` is set. -/
theorem search_raw_no_added_sort (pq : PaginatedQuery) (lookup : Option (List Stage))
    (countOnly : Bool) (a b : Option Fragment) (r : SearchService.SearchAction)
    (hlk : (lookup.getD []).all (fun s => !isSortStage s) = true)
    (h : SearchService.search pq lookup countOnly a b true = .ok r) :
    ∃ stages, r = .raw stages ∧ stages.all (fun s => !isSortStage s) = true := by
  cases hagg : SearchService.createAggregation pq lookup a b true with
  | error e => simp [SearchService.search, hagg] at h
  | ok stages =>
    simp only [SearchService.search, hagg, if_pos, Except.ok.injEq] at h
    obtain ⟨fc, qc, h1, h2, h3⟩ := createAggregation_core pq lookup a b true stages hagg
    refine ⟨stages, h.symm, ?_⟩
    subst h3
    rw [List.all_append]
    rw [project_all_not_sort (some pq)
      (some (SearchService.buildCoreStages fc qc pq lookup a b true))]
    rw [Bool.true_and]
    simp only [SearchService.buildCoreStages]
    simp [List.all_append, isSortStage]
    intro x hx
    have hx' := List.all_eq_true.mp hlk x hx
    simpa [isSortStage] using hx'

/-- C10 witness: amended behavior at a concrete input with a sort-free
lookup list. -/
theorem search_raw_no_added_sort_witness :
    ∃ stages,
      SearchService.SearchAction.raw [Stage.matchS .emptyObj, Stage.matchS .emptyObj] =
        SearchService.SearchAction.raw stages ∧
      stages.all (fun s => !isSortStage s) = true :=
  search_raw_no_added_sort {} none false none none
    (.raw [Stage.matchS .emptyObj, Stage.matchS .emptyObj]) rfl rfl

end MSE
